import Mathlib

/-
Shallow embedding of the Argon2 core engine described by `src/src/core.h`
(repository Argon2-Practical-Graph).  The repository ships only the header:
every function of the core is declared there together with its documentation,
but the bodies live outside `src/`.  Constants, data-structure shapes and the
enumerated types are therefore taken directly from the header; the behaviour
of the declared functions is modelled from the specification (`spec.md`),
which in turn defers to the published Argon2 algorithm for the
reference-index formulas.  All machine integers are embedded as `Nat` with
explicit reduction modulo 2^32 / 2^64 where the C code computes in
`uint32_t` / `uint64_t`.
-/

namespace Argon2

/-- Version of the algorithm, `ARGON2_VERSION_NUMBER = 0x10` in the header. -/
def ARGON2_VERSION_NUMBER : Nat := 16

/-- Memory block size in bytes (`ARGON2_BLOCK_SIZE` in the header). -/
def ARGON2_BLOCK_SIZE : Nat := 1024

/-- Number of 64-bit words in a block (`ARGON2_BLOCK_SIZE / 8` in the header). -/
def ARGON2_WORDS_IN_BLOCK : Nat := ARGON2_BLOCK_SIZE / 8

/-- Number of 128-bit quadwords in a block, from the header. -/
def ARGON2_QWORDS_IN_BLOCK : Nat := 64

/-- Number of pseudo-random values generated by one call to Blake in Argon2i. -/
def ARGON2_ADDRESSES_IN_BLOCK : Nat := 128

/-- Pre-hashing digest length, from the header. -/
def ARGON2_PREHASH_DIGEST_LENGTH : Nat := 64

/-- Pre-hashing seed length (digest extended by block and lane indices). -/
def ARGON2_PREHASH_SEED_LENGTH : Nat := 72

/-- Number of slices per lane ("sync points"); the spec fixes four slices per
lane per pass (memory is always divided into exactly 4 slices). -/
def ARGON2_SYNC_POINTS : Nat := 4

/-- Alignment in bytes of the block structure, from the
aligned(16) attribute on `struct _block` in the header. -/
def BLOCK_ALIGNMENT : Nat := 16

/-- The two Argon2 primitive types declared in the header. -/
inductive Argon2_type where
  | Argon2_d : Argon2_type
  | Argon2_i : Argon2_type
deriving DecidableEq, Repr

/-- Reduction modulo 2^32: the value of a C `uint32_t` computation. -/
def u32 (n : Nat) : Nat := n % 4294967296

/-- `uint32_t` addition. -/
def u32add (a b : Nat) : Nat := u32 (a + b)

/-- `uint32_t` subtraction (wrapping). -/
def u32sub (a b : Nat) : Nat := u32 (a + 4294967296 - u32 b)

/-- `uint32_t` multiplication. -/
def u32mul (a b : Nat) : Nat := u32 (a * b)

/-- Reduction modulo 2^64: the value of a C `uint64_t` computation. -/
def u64 (n : Nat) : Nat := n % 18446744073709551616

/-- `uint64_t` subtraction (wrapping). -/
def u64sub (a b : Nat) : Nat := u64 (a + 18446744073709551616 - u64 b)

/-- `uint64_t` multiplication. -/
def u64mul (a b : Nat) : Nat := u64 (a * b)

/-- A memory block: 128 sixty-four-bit words (1 KiB), as `struct _block`. -/
def Block : Type := Fin ARGON2_WORDS_IN_BLOCK → Nat

/-- Word 0 of a block, used by Argon2d for pseudo-random value derivation. -/
def word0 (b : Block) : Nat := b ⟨0, by decide⟩

/-- Extract byte `k` (little-endian) of a 64-bit word value. -/
def byteOf (w k : Nat) : Nat := w / 256 ^ k % 256

/-- Modelled from the spec: `init_block_value` is declared in the header
("Initialize each byte of the block with @in") without a body.  Each 64-bit
word becomes the byte `v` repeated eight times;
72340172838076673 = 0x0101010101010101. -/
def init_block_value (v : Nat) : Block := fun _ => v % 256 * 72340172838076673

/-- Modelled from the spec: `copy_block` is declared in the header ("Copy
block @src to block @dst") without a body.  The result is the new value of
the destination block. -/
def copy_block (dst src : Block) : Block := src

/-- Modelled from the spec: `xor_block` is declared in the header ("XOR @src
onto @dst bytewise") without a body.  The result is the new value of the
destination block: each word is XORed with the corresponding word of the
source. -/
def xor_block (dst src : Block) : Block := fun i => Nat.xor (dst i) (src i)

/-- The memory region: blocks addressed by flat index
`lane * lane_length + position`, as the C `block *memory` array. -/
def Mem : Type := Nat → Block

/-- The Argon2 instance structure from the header: memory pointer, number of
passes, amount of memory, derived lengths, lanes, thread-count hint, type and
diagnostic flag. -/
structure Argon2_instance_t where
  memory : Mem
  passes : Nat
  memory_blocks : Nat
  segment_length : Nat
  lane_length : Nat
  lanes : Nat
  threads : Nat
  type : Argon2_type
  print_internals : Bool

/-- The Argon2 position structure from the header: where we construct the
block right now. -/
structure Argon2_position_t where
  pass : Nat
  lane : Nat
  slice : Nat
  index : Nat

/-- Modelled from the spec: the body of `index_alpha` is not under `src/`
(the header only declares it).  The spec describes the reference-area sizes,
the squaring bias and the visibility boundaries and explicitly defers to the
published Argon2 algorithm for the exact formulas; this is that formula.
First the eligible reference-area size for the position. -/
def reference_area_size (inst : Argon2_instance_t) (pos : Argon2_position_t)
    (same_lane : Bool) : Nat :=
  if pos.pass = 0 then
    if pos.slice = 0 then
      u32sub pos.index 1
    else if same_lane then
      u32sub (u32add (u32mul pos.slice inst.segment_length) pos.index) 1
    else
      u32add (u32mul pos.slice inst.segment_length)
        (if pos.index = 0 then u32sub 0 1 else 0)
  else
    if same_lane then
      u32sub (u32add (u32sub inst.lane_length inst.segment_length) pos.index) 1
    else
      u32add (u32sub inst.lane_length inst.segment_length)
        (if pos.index = 0 then u32sub 0 1 else 0)

/-- Modelled from the spec: the skewed (triangular-bias) mapping of the 32-bit
pseudo-random value into the reference area, computed in `uint64_t`. -/
def relative_position (area pseudo_rand : Nat) : Nat :=
  u64sub (u64sub area 1) (u64mul area (u64mul pseudo_rand pseudo_rand / 4294967296) / 4294967296)

/-- Modelled from the spec: the starting position of the reference window;
zero on the first pass, the next slice (wrapping) on later passes. -/
def start_position (inst : Argon2_instance_t) (pos : Argon2_position_t) : Nat :=
  if pos.pass ≠ 0 then
    if pos.slice = ARGON2_SYNC_POINTS - 1 then 0
    else u32mul (pos.slice + 1) inst.segment_length
  else 0

/-- Modelled from the spec: `index_alpha` computes the absolute position of
the reference block in the lane following a skewed distribution, using a
pseudo-random value as input (header lines 138-150; body not under `src/`). -/
def index_alpha (inst : Argon2_instance_t) (pos : Argon2_position_t)
    (pseudo_rand : Nat) (same_lane : Bool) : Nat :=
  u64 (start_position inst pos + relative_position (reference_area_size inst pos same_lane) pseudo_rand)
    % inst.lane_length

/-- Structural well-formedness of an instance, as established by the
orchestrator: at least two blocks per segment (the minimum memory is two
blocks per slice), four slices per lane, and lane length representable in
`uint32_t`. -/
def ValidInstance (inst : Argon2_instance_t) : Prop :=
  2 ≤ inst.segment_length ∧
  inst.lane_length = ARGON2_SYNC_POINTS * inst.segment_length ∧
  inst.lane_length < 4294967296 ∧
  1 ≤ inst.lanes

/-- Well-formedness of a position/flag pair as produced by the segment
filler: slice below four, index inside the segment, and during pass 0 slice 0
the reference stays in the current lane and the first two blocks are
pre-seeded (the fill starts at index 2). -/
def ValidPosition (inst : Argon2_instance_t) (pos : Argon2_position_t)
    (same_lane : Bool) : Prop :=
  pos.slice < ARGON2_SYNC_POINTS ∧
  pos.index < inst.segment_length ∧
  (pos.pass = 0 ∧ pos.slice = 0 → same_lane = true ∧ 2 ≤ pos.index)

/-- The in-lane positions that are already fully written, and safe to read,
when the block at `pos` is being produced and the reference lane is the
current one (`same_lane = true`) or a different one (`same_lane = false`):
on pass 0, the same-lane history strictly before the current block, or the
strictly earlier slices of the other lane; on later passes, the whole lane
except the block being written (same lane), or everything outside the
current slice (other lane, which may be rewriting that slice concurrently). -/
def fully_written (inst : Argon2_instance_t) (pos : Argon2_position_t)
    (same_lane : Bool) (j : Nat) : Prop :=
  if pos.pass = 0 then
    if same_lane then j < pos.slice * inst.segment_length + pos.index
    else j < pos.slice * inst.segment_length
  else
    j < inst.lane_length ∧
      (if same_lane then j ≠ pos.slice * inst.segment_length + pos.index
       else j < pos.slice * inst.segment_length ∨
            (pos.slice + 1) * inst.segment_length ≤ j)

instance (inst : Argon2_instance_t) (pos : Argon2_position_t)
    (same_lane : Bool) (j : Nat) :
    Decidable (fully_written inst pos same_lane j) := by
  unfold fully_written
  infer_instance

instance (inst : Argon2_instance_t) : Decidable (ValidInstance inst) := by
  unfold ValidInstance
  infer_instance

instance (inst : Argon2_instance_t) (pos : Argon2_position_t)
    (same_lane : Bool) : Decidable (ValidPosition inst pos same_lane) := by
  unfold ValidPosition
  infer_instance

/-- Flat offset of the block being constructed, `lane * lane_length +
slice * segment_length + index`. -/
def curr_offset (inst : Argon2_instance_t) (lane slice index : Nat) : Nat :=
  lane * inst.lane_length + slice * inst.segment_length + index

/-- Modelled from the spec: the immediately preceding block in this lane,
wrapping to the lane's last block for the lane's very first block. -/
def prev_offset (inst : Argon2_instance_t) (lane slice index : Nat) : Nat :=
  if slice = 0 ∧ index = 0 then lane * inst.lane_length + inst.lane_length - 1
  else lane * inst.lane_length + slice * inst.segment_length + index - 1

/-- Modelled from the spec: the 64-bit pseudo-random value.  In the
data-dependent mode (Argon2d) it is word 0 of the previous block; in the
data-independent mode (Argon2i) it comes from the counter-keyed stream
produced by the external hash primitive, abstracted here as the function
`addr` of the position (the stream generator itself is out of scope). -/
def pseudo_rand_of (addr : Nat → Nat → Nat → Nat → Nat)
    (inst : Argon2_instance_t) (pass lane slice index : Nat) (mem : Mem) : Nat :=
  match inst.type with
  | .Argon2_d => u64 (word0 (mem (prev_offset inst lane slice index)))
  | .Argon2_i => u64 (addr pass lane slice index)

/-- Modelled from the spec: the reference lane comes from the high 32 bits of
the pseudo-random value, except during pass 0 slice 0 where it is forced to
the current lane. -/
def ref_lane_of (inst : Argon2_instance_t) (pass slice lane pr : Nat) : Nat :=
  if pass = 0 ∧ slice = 0 then lane else pr / 4294967296 % inst.lanes

/-- The in-lane index of the reference block selected for this position. -/
def ref_index_of (addr : Nat → Nat → Nat → Nat → Nat)
    (inst : Argon2_instance_t) (pass lane slice index : Nat) (mem : Mem) : Nat :=
  index_alpha inst ⟨pass, lane, slice, index⟩
    (pseudo_rand_of addr inst pass lane slice index mem % 4294967296)
    (decide (ref_lane_of inst pass slice lane
      (pseudo_rand_of addr inst pass lane slice index mem) = lane))

/-- Flat offset of the reference block selected for this position. -/
def ref_offset_of (addr : Nat → Nat → Nat → Nat → Nat)
    (inst : Argon2_instance_t) (pass lane slice index : Nat) (mem : Mem) : Nat :=
  ref_lane_of inst pass slice lane
      (pseudo_rand_of addr inst pass lane slice index mem) * inst.lane_length
    + ref_index_of addr inst pass lane slice index mem

/-- The freshly compressed block: the external compression primitive `G`
applied to the previous block and the reference block. -/
def compress_result (G : Block → Block → Block)
    (addr : Nat → Nat → Nat → Nat → Nat) (inst : Argon2_instance_t)
    (pass lane slice index : Nat) (mem : Mem) : Block :=
  G (mem (prev_offset inst lane slice index))
    (mem (ref_offset_of addr inst pass lane slice index mem))

/-- Modelled from the spec: one step of the segment filler.  On the first
pass the compression result plainly overwrites the destination block; on
every later pass it is XOR-accumulated onto the destination block's existing
contents from the previous pass. -/
def fill_block (G : Block → Block → Block)
    (addr : Nat → Nat → Nat → Nat → Nat) (inst : Argon2_instance_t)
    (pass lane slice index : Nat) (mem : Mem) : Mem :=
  Function.update mem (curr_offset inst lane slice index)
    (if pass = 0 then compress_result G addr inst pass lane slice index mem
     else xor_block (mem (curr_offset inst lane slice index))
       (compress_result G addr inst pass lane slice index mem))

/-- Modelled from the spec: the first block filled in a segment; pass 0
slice 0 starts at index 2 because blocks 0 and 1 are pre-seeded. -/
def starting_index (pass slice : Nat) : Nat :=
  if pass = 0 ∧ slice = 0 then 2 else 0

/-- Modelled from the spec: `fill_segment` (header lines 207-215; body not
under `src/`) fills one (lane, slice) segment in increasing index order. -/
def fill_segment_mem (G : Block → Block → Block)
    (addr : Nat → Nat → Nat → Nat → Nat) (inst : Argon2_instance_t)
    (pass lane slice : Nat) (mem : Mem) : Mem :=
  (List.range' (starting_index pass slice)
      (inst.segment_length - starting_index pass slice)).foldl
    (fun m i => fill_block G addr inst pass lane slice i m) mem

/-- One (pass, slice) unit of work: the lanes are processed in the order
given by `order`; with real threads the order is determined by scheduling,
which the specification requires to be irrelevant to the result. -/
def fill_slice_mem (G : Block → Block → Block)
    (addr : Nat → Nat → Nat → Nat → Nat) (inst : Argon2_instance_t)
    (pass slice : Nat) (order : List Nat) (mem : Mem) : Mem :=
  order.foldl (fun m l => fill_segment_mem G addr inst pass l slice m) mem

/-- Modelled from the spec: `fill_memory_blocks` (header lines 217-222; body
not under `src/`) iterates all passes and the four slices, filling one
segment per lane per slice; `sched` gives the lane order used within each
(pass, slice) unit, abstracting the thread batching. -/
def fill_memory_blocks_mem (G : Block → Block → Block)
    (addr : Nat → Nat → Nat → Nat → Nat) (inst : Argon2_instance_t)
    (sched : Nat → Nat → List Nat) (mem : Mem) : Mem :=
  (List.range inst.passes).foldl
    (fun m p =>
      (List.range ARGON2_SYNC_POINTS).foldl
        (fun m2 s => fill_slice_mem G addr inst p s (sched p s) m2) m)
    mem

/-- Instance-level segment filler: mutates only the memory of the instance. -/
def fill_segment (G : Block → Block → Block)
    (addr : Nat → Nat → Nat → Nat → Nat) (inst : Argon2_instance_t)
    (position : Argon2_position_t) : Argon2_instance_t :=
  { inst with memory := (fill_segment_mem G addr inst position.pass
      position.lane position.slice inst.memory) }

/-- Instance-level scheduler: mutates only the memory of the instance. -/
def fill_memory_blocks (G : Block → Block → Block)
    (addr : Nat → Nat → Nat → Nat → Nat) (inst : Argon2_instance_t)
    (sched : Nat → Nat → List Nat) : Argon2_instance_t :=
  { inst with memory := fill_memory_blocks_mem G addr inst sched inst.memory }

/-- The all-zero block and memory, used for fresh allocations in examples. -/
def zeroBlock : Block := fun _ => 0

/-- The all-zero memory. -/
def zeroMem : Mem := fun _ => zeroBlock

/-- Modelled from the spec: `clear_memory` (header lines 127-131; body not
under `src/`) optionally zeroes the memory; it touches nothing else. -/
def clear_memory (inst : Argon2_instance_t) (clear : Bool) : Argon2_instance_t :=
  { inst with memory := if clear then zeroMem else inst.memory }

/-- The flat-offset region a segment filler is allowed to write: the blocks
of the (lane, slice) segment. -/
def seg_region (inst : Argon2_instance_t) (lane slice : Nat) (o : Nat) : Prop :=
  lane * inst.lane_length + slice * inst.segment_length ≤ o ∧
  o < lane * inst.lane_length + (slice + 1) * inst.segment_length

/-- Modelled from the spec: the Argon2 context (declared in the missing
`argon2.h`): user inputs and cost parameters of one hashing invocation. -/
structure Argon2_Context where
  out_len : Nat
  pwd : List Nat
  salt : List Nat
  secret : List Nat
  ad : List Nat
  t_cost : Nat
  m_cost : Nat
  lanes : Nat
  threads : Nat

/-- Modelled from the spec: the error taxonomy (the codes live in the missing
`argon2.h`): one code per out-of-range parameter, plus allocation failure. -/
inductive Argon2ErrorCode where
  | ARGON2_OK : Argon2ErrorCode
  | ARGON2_OUTPUT_TOO_SHORT : Argon2ErrorCode
  | ARGON2_OUTPUT_TOO_LONG : Argon2ErrorCode
  | ARGON2_PWD_TOO_LONG : Argon2ErrorCode
  | ARGON2_SALT_TOO_SHORT : Argon2ErrorCode
  | ARGON2_SALT_TOO_LONG : Argon2ErrorCode
  | ARGON2_MEMORY_TOO_LITTLE : Argon2ErrorCode
  | ARGON2_MEMORY_TOO_MUCH : Argon2ErrorCode
  | ARGON2_TIME_TOO_SMALL : Argon2ErrorCode
  | ARGON2_LANES_TOO_FEW : Argon2ErrorCode
  | ARGON2_LANES_TOO_MANY : Argon2ErrorCode
  | ARGON2_THREADS_TOO_FEW : Argon2ErrorCode
  | ARGON2_THREADS_TOO_MANY : Argon2ErrorCode
  | ARGON2_MEMORY_ALLOCATION_ERROR : Argon2ErrorCode
deriving DecidableEq, Repr

/-- Modelled from the spec: representative parameter bounds used by the
validation collaborator (the numeric limits live in the missing `argon2.h`). -/
def ARGON2_MIN_OUTLEN : Nat := 4

/-- Maximum output length. -/
def ARGON2_MAX_OUTLEN : Nat := 4294967295

/-- Maximum password length. -/
def ARGON2_MAX_PWD_LENGTH : Nat := 4294967295

/-- Minimum salt length. -/
def ARGON2_MIN_SALT_LENGTH : Nat := 8

/-- Maximum salt length. -/
def ARGON2_MAX_SALT_LENGTH : Nat := 4294967295

/-- Minimum number of passes. -/
def ARGON2_MIN_TIME : Nat := 1

/-- Minimum number of lanes. -/
def ARGON2_MIN_LANES : Nat := 1

/-- Maximum number of lanes. -/
def ARGON2_MAX_LANES : Nat := 16777215

/-- Minimum number of threads. -/
def ARGON2_MIN_THREADS : Nat := 1

/-- Maximum number of threads. -/
def ARGON2_MAX_THREADS : Nat := 16777215

/-- Maximum memory cost in blocks. -/
def ARGON2_MAX_MEMORY : Nat := 4294967295

/-- Modelled from the spec: `validate_inputs` (header lines 152-159; body not
under `src/`) checks every parameter against its bounds and returns the
specific error kind, or `ARGON2_OK`. -/
def validate_inputs (ctx : Argon2_Context) : Argon2ErrorCode :=
  if ctx.out_len < ARGON2_MIN_OUTLEN then .ARGON2_OUTPUT_TOO_SHORT
  else if ctx.out_len > ARGON2_MAX_OUTLEN then .ARGON2_OUTPUT_TOO_LONG
  else if ctx.pwd.length > ARGON2_MAX_PWD_LENGTH then .ARGON2_PWD_TOO_LONG
  else if ctx.salt.length < ARGON2_MIN_SALT_LENGTH then .ARGON2_SALT_TOO_SHORT
  else if ctx.salt.length > ARGON2_MAX_SALT_LENGTH then .ARGON2_SALT_TOO_LONG
  else if ctx.m_cost < 2 * ARGON2_SYNC_POINTS * ctx.lanes then .ARGON2_MEMORY_TOO_LITTLE
  else if ctx.m_cost > ARGON2_MAX_MEMORY then .ARGON2_MEMORY_TOO_MUCH
  else if ctx.t_cost < ARGON2_MIN_TIME then .ARGON2_TIME_TOO_SMALL
  else if ctx.lanes < ARGON2_MIN_LANES then .ARGON2_LANES_TOO_FEW
  else if ctx.lanes > ARGON2_MAX_LANES then .ARGON2_LANES_TOO_MANY
  else if ctx.threads < ARGON2_MIN_THREADS then .ARGON2_THREADS_TOO_FEW
  else if ctx.threads > ARGON2_MAX_THREADS then .ARGON2_THREADS_TOO_MANY
  else .ARGON2_OK

/-- Modelled from the spec: construction of the instance by the orchestrator:
the memory cost is clamped below by two blocks per slice per lane, then
rounded down to a multiple of `4 * lanes` via the derived segment length. -/
def mkInstance (ctx : Argon2_Context) (ty : Argon2_type) : Argon2_instance_t :=
  let memory_blocks0 :=
    if ctx.m_cost < 2 * ARGON2_SYNC_POINTS * ctx.lanes
    then 2 * ARGON2_SYNC_POINTS * ctx.lanes else ctx.m_cost
  let segment_length := memory_blocks0 / (ctx.lanes * ARGON2_SYNC_POINTS)
  { memory := zeroMem
    passes := ctx.t_cost
    memory_blocks := segment_length * (ctx.lanes * ARGON2_SYNC_POINTS)
    segment_length := segment_length
    lane_length := segment_length * ARGON2_SYNC_POINTS
    lanes := ctx.lanes
    threads := ctx.threads
    type := ty
    print_internals := false }

/-- Little-endian 4-byte encoding of a 32-bit value. -/
def le32 (n : Nat) : List Nat :=
  [n % 256, n / 256 % 256, n / 65536 % 256, n / 16777216 % 256]

/-- Little-endian 8-byte encoding of a 64-bit value. -/
def le64 (n : Nat) : List Nat := (List.range 8).map (fun k => n / 256 ^ k % 256)

/-- Numeric code of the primitive type. -/
def type_code (ty : Argon2_type) : Nat :=
  match ty with
  | .Argon2_d => 0
  | .Argon2_i => 1

/-- Modelled from the spec: the input of the pre-hash: all hashing parameters
(lanes, output length, memory and time costs, version, type) and the
length-prefixed password, salt, secret and associated data.  The thread-count
hint is not a hashing parameter and is not included. -/
def serialize_context (ctx : Argon2_Context) (ty : Argon2_type) : List Nat :=
  le32 ctx.lanes ++ le32 ctx.out_len ++ le32 ctx.m_cost ++ le32 ctx.t_cost ++
  le32 ARGON2_VERSION_NUMBER ++ le32 (type_code ty) ++
  le32 ctx.pwd.length ++ ctx.pwd ++ le32 ctx.salt.length ++ ctx.salt ++
  le32 ctx.secret.length ++ ctx.secret ++ le32 ctx.ad.length ++ ctx.ad

/-- Modelled from the spec: `initial_hash` (header lines 161-172; body not
under `src/`) hashes all the inputs into a pre-hashing digest of
`ARGON2_PREHASH_DIGEST_LENGTH` bytes; `H` is the external hash primitive
`hash(bytes, output_length)`. -/
def initial_hash (H : List Nat → Nat → List Nat) (ctx : Argon2_Context)
    (ty : Argon2_type) : List Nat :=
  H (serialize_context ctx ty) ARGON2_PREHASH_DIGEST_LENGTH

/-- Modelled from the spec: the seed expanded into one of the first blocks of
a lane: the pre-hash digest followed by the 4-byte little-endian block index
and the 4-byte little-endian lane index, filling the
`ARGON2_PREHASH_SEED_LENGTH`-byte buffer. -/
def blockhash_seed (digest : List Nat) (blockIdx laneIdx : Nat) : List Nat :=
  digest.take ARGON2_PREHASH_DIGEST_LENGTH ++ le32 blockIdx ++ le32 laneIdx

/-- Reassemble a block from a little-endian byte stream. -/
def bytesToBlock (bs : List Nat) : Block :=
  fun i =>
    (List.range 8).foldl (fun acc k => acc + bs.getD (8 * i.val + k) 0 * 256 ^ k) 0

/-- Modelled from the spec: `fill_firsts_blocks` (header lines 174-180; body
not under `src/`) creates blocks 0 and 1 of every lane by expanding the
seeded digest through the external variable-length hash. -/
def fill_firsts_blocks_mem (H : List Nat → Nat → List Nat)
    (inst : Argon2_instance_t) (blockhash : List Nat) (mem : Mem) : Mem :=
  (List.range inst.lanes).foldl
    (fun m l =>
      Function.update
        (Function.update m (l * inst.lane_length)
          (bytesToBlock (H (blockhash_seed blockhash 0 l) ARGON2_BLOCK_SIZE)))
        (l * inst.lane_length + 1)
        (bytesToBlock (H (blockhash_seed blockhash 1 l) ARGON2_BLOCK_SIZE)))
    mem

/-- Instance-level first-blocks filler: mutates only the memory. -/
def fill_firsts_blocks (H : List Nat → Nat → List Nat) (blockhash : List Nat)
    (inst : Argon2_instance_t) : Argon2_instance_t :=
  { inst with memory := fill_firsts_blocks_mem H inst blockhash inst.memory }

/-- Serialize a block to its 1024-byte little-endian stream. -/
def block_bytes (b : Block) : List Nat :=
  (List.finRange ARGON2_WORDS_IN_BLOCK).foldr (fun i acc => le64 (b i) ++ acc) []

/-- Modelled from the spec: the finalizer XORs the last block of every lane
into one synthesis block. -/
def last_blocks_xor (inst : Argon2_instance_t) (mem : Mem) : Block :=
  (List.range' 1 (inst.lanes - 1)).foldl
    (fun acc l => xor_block acc (mem (l * inst.lane_length + inst.lane_length - 1)))
    (mem (inst.lane_length - 1))

/-- Modelled from the spec: `finalize` (header lines 194-205; body not under
`src/`) hashes the synthesis block into the output tag of the requested
length. -/
def finalize_tag (H : List Nat → Nat → List Nat) (inst : Argon2_instance_t)
    (mem : Mem) (outlen : Nat) : List Nat :=
  H (block_bytes (last_blocks_xor inst mem)) outlen

/-- Observable steps of one `argon2_core` run, in order. -/
inductive CoreEvent where
  | evValidate : CoreEvent
  | evAllocCall : CoreEvent
  | evAllocSuccess : CoreEvent
  | evInitialize : CoreEvent
  | evFill : CoreEvent
  | evFinalize : CoreEvent
  | evFree : CoreEvent
deriving DecidableEq, Repr

/-- Modelled from the spec: `initialize` (header lines 182-192; body not
under `src/`) allocates memory, hashes the inputs, and creates the first two
blocks of every lane; `none` reports allocation failure. -/
def initialize_blocks (H : List Nat → Nat → List Nat) (alloc : Nat → Option Mem)
    (inst : Argon2_instance_t) (ctx : Argon2_Context) (ty : Argon2_type) :
    Option Argon2_instance_t :=
  match alloc inst.memory_blocks with
  | none => none
  | some mem0 =>
    some { inst with
      memory := (fill_firsts_blocks_mem H { inst with memory := mem0 }
        (initial_hash H ctx ty) mem0) }

/-- Modelled from the spec: `argon2_core` (header lines 224-229; body not
under `src/`): validate, allocate and initialize, fill all passes, finalize,
always free.  The result is the error code, the tag written to the output
buffer (`none` when no tag is produced), and the trace of performed steps. -/
def argon2_core (G : Block → Block → Block)
    (addr : Nat → Nat → Nat → Nat → Nat) (H : List Nat → Nat → List Nat)
    (alloc : Nat → Option Mem) (sched : Nat → Nat → List Nat)
    (ctx : Argon2_Context) (ty : Argon2_type) :
    Argon2ErrorCode × Option (List Nat) × List CoreEvent :=
  let v := validate_inputs ctx
  if v ≠ .ARGON2_OK then (v, none, [.evValidate])
  else
    match initialize_blocks H alloc (mkInstance ctx ty) ctx ty with
    | none => (.ARGON2_MEMORY_ALLOCATION_ERROR, none, [.evValidate, .evAllocCall])
    | some inst1 =>
      let mem2 := fill_memory_blocks_mem G addr inst1 sched inst1.memory
      (.ARGON2_OK, some (finalize_tag H inst1 mem2 ctx.out_len),
        [.evValidate, .evAllocCall, .evAllocSuccess, .evInitialize,
         .evFill, .evFinalize, .evFree])

/-- Blocks allocated and not freed in a trace: zero everywhere means no
memory is ever leaked. -/
def alloc_balance (tr : List CoreEvent) : Nat :=
  tr.count CoreEvent.evAllocSuccess - tr.count CoreEvent.evFree

/-- Concrete instance used for the `index_alpha` counterexample: one lane of
eight blocks (segments of two), two passes. -/
def cexInst : Argon2_instance_t :=
  { memory := zeroMem, passes := 2, memory_blocks := 8, segment_length := 2,
    lane_length := 8, lanes := 1, threads := 1, type := .Argon2_i,
    print_internals := false }

/-- Position of the counterexample: pass 1, slice 0, index 1, so the block
being written sits at in-lane position 1 and its successor at position 2. -/
def cexPos : Argon2_position_t := ⟨1, 0, 0, 1⟩

/-- Trivial compression primitive for witnesses. -/
def G0 : Block → Block → Block := fun _ _ => zeroBlock

/-- Trivial address stream for witnesses. -/
def addr0 : Nat → Nat → Nat → Nat → Nat := fun _ _ _ _ => 0

/-- Trivial hash primitive for witnesses: the right output length, all
zeroes. -/
def H0 : List Nat → Nat → List Nat := fun _ n => List.replicate n 0

/-- Always-succeeding allocator for witnesses. -/
def alloc0 : Nat → Option Mem := fun _ => some zeroMem

/-- Always-failing allocator, simulating allocation failure. -/
def allocFail : Nat → Option Mem := fun _ => none

/-- One-lane schedule for witnesses. -/
def sched0 : Nat → Nat → List Nat := fun _ _ => [0]

/-- A well-formed concrete context for witnesses. -/
def ctx0 : Argon2_Context :=
  { out_len := 32, pwd := [], salt := [0, 0, 0, 0, 0, 0, 0, 0], secret := [],
    ad := [], t_cost := 1, m_cost := 8, lanes := 1, threads := 1 }

/-- A malformed context: requested output length zero. -/
def ctxBadOut : Argon2_Context :=
  { out_len := 0, pwd := [], salt := [0, 0, 0, 0, 0, 0, 0, 0], secret := [],
    ad := [], t_cost := 1, m_cost := 8, lanes := 1, threads := 1 }

lemma u32_eq_of_lt {n : Nat} (h : n < 4294967296) : u32 n = n := by
  unfold u32
  omega

lemma u32add_eq {a b : Nat} (h : a + b < 4294967296) : u32add a b = a + b := by
  unfold u32add u32
  omega

lemma u32sub_eq {a b : Nat} (hb : b ≤ a) (ha : a < 4294967296) :
    u32sub a b = a - b := by
  unfold u32sub u32
  omega

lemma u32mul_eq {a b : Nat} (h : a * b < 4294967296) : u32mul a b = a * b := by
  unfold u32mul u32
  exact Nat.mod_eq_of_lt h

lemma u64_eq_of_lt {n : Nat} (h : n < 18446744073709551616) : u64 n = n := by
  unfold u64
  omega

lemma u64sub_eq {a b : Nat} (hb : b ≤ a) (ha : a < 18446744073709551616) :
    u64sub a b = a - b := by
  unfold u64sub u64
  omega

lemma u64mul_eq {a b : Nat} (h : a * b < 18446744073709551616) :
    u64mul a b = a * b := by
  unfold u64mul u64
  exact Nat.mod_eq_of_lt h

lemma u32add_sub_one {a : Nat} (h1 : 1 ≤ a) (h2 : a < 4294967296) :
    u32add a (u32sub 0 1) = a - 1 := by
  unfold u32add u32sub u32
  omega


/-- The skewed mapping lands strictly inside the reference area. -/
lemma relative_position_lt {area pseudo_rand : Nat} (h1 : 1 ≤ area)
    (h2 : area < 4294967296) (hr : pseudo_rand < 4294967296) :
    relative_position area pseudo_rand < area := by
  unfold relative_position
  have hrr : pseudo_rand * pseudo_rand < 18446744073709551616 := by
    have := Nat.mul_lt_mul_of_lt_of_lt hr hr
    omega
  rw [u64mul_eq hrr]
  have hr1lt : pseudo_rand * pseudo_rand / 4294967296 < 4294967296 :=
    Nat.div_lt_of_lt_mul (by omega)
  have har1 : area * (pseudo_rand * pseudo_rand / 4294967296) < 18446744073709551616 := by
    have := Nat.mul_lt_mul_of_lt_of_lt h2 hr1lt
    omega
  rw [u64mul_eq har1]
  have hxle : area * (pseudo_rand * pseudo_rand / 4294967296) ≤ area * 4294967295 :=
    Nat.mul_le_mul_left area (by omega)
  have hxlt : area * (pseudo_rand * pseudo_rand / 4294967296) / 4294967296 < area :=
    Nat.div_lt_of_lt_mul (by omega)
  have ha1 : u64sub area 1 = area - 1 := u64sub_eq (by omega) (by omega)
  rw [ha1, u64sub_eq (by omega) (by omega)]
  omega


/-- Core soundness of the reference-index resolver: under the validity
hypotheses, the index returned by `index_alpha` addresses a block that is
already fully written at the moment the block at `pos` is being produced. -/
lemma index_alpha_mem_fully_written (inst : Argon2_instance_t)
    (pos : Argon2_position_t) (pseudo_rand : Nat) (same_lane : Bool)
    (hI : ValidInstance inst) (hP : ValidPosition inst pos same_lane)
    (hr : pseudo_rand < 4294967296) :
    fully_written inst pos same_lane
      (index_alpha inst pos pseudo_rand same_lane) := by
  obtain ⟨hseg, hLL, hL32, hlanes⟩ := hI
  obtain ⟨hslice, hidx, h00⟩ := hP
  rw [show ARGON2_SYNC_POINTS = 4 from rfl] at hLL hslice
  have hA3 : pos.slice * inst.segment_length ≤ 3 * inst.segment_length :=
    Nat.mul_le_mul_right inst.segment_length (by omega)
  have hsub1 : u32sub 0 1 = 4294967295 := by
    unfold u32sub u32
    norm_num
  unfold index_alpha
  by_cases hpass : pos.pass = 0
  · -- first pass: the reference window starts at position 0
    have hstart : start_position inst pos = 0 := by
      unfold start_position
      simp [hpass]
    rw [hstart]
    by_cases hs0 : pos.slice = 0
    · -- first slice: same lane forced, fill starts at index 2
      obtain ⟨hsl, hi2⟩ := h00 ⟨hpass, hs0⟩
      have harea : reference_area_size inst pos same_lane = pos.index - 1 := by
        unfold reference_area_size
        rw [if_pos hpass, if_pos hs0]
        exact u32sub_eq (by omega) (by omega)
      rw [harea]
      have hrel : relative_position (pos.index - 1) pseudo_rand < pos.index - 1 :=
        relative_position_lt (by omega) (by omega) hr
      rw [u64_eq_of_lt (by omega), Nat.mod_eq_of_lt (by omega)]
      unfold fully_written
      rw [if_pos hpass, hsl, if_pos rfl, hs0]
      omega
    · -- later slices of the first pass
      have hApos : inst.segment_length ≤ pos.slice * inst.segment_length :=
        Nat.le_mul_of_pos_left inst.segment_length (by omega)
      cases same_lane with
      | true =>
        have harea : reference_area_size inst pos true =
            pos.slice * inst.segment_length + pos.index - 1 := by
          unfold reference_area_size
          rw [if_pos hpass, if_neg hs0, if_pos rfl]
          rw [u32mul_eq (by omega), u32add_eq (by omega)]
          exact u32sub_eq (by omega) (by omega)
        rw [harea]
        have hrel : relative_position
            (pos.slice * inst.segment_length + pos.index - 1) pseudo_rand
            < pos.slice * inst.segment_length + pos.index - 1 :=
          relative_position_lt (by omega) (by omega) hr
        rw [u64_eq_of_lt (by omega), Nat.mod_eq_of_lt (by omega)]
        unfold fully_written
        rw [if_pos hpass, if_pos rfl]
        omega
      | false =>
        have hb : 1 ≤ reference_area_size inst pos false ∧
            reference_area_size inst pos false ≤ pos.slice * inst.segment_length := by
          unfold reference_area_size
          rw [if_pos hpass, if_neg hs0, if_neg (by simp)]
          rw [u32mul_eq (by omega)]
          by_cases hi0 : pos.index = 0
          · rw [if_pos hi0, u32add_sub_one (by omega) (by omega)]
            omega
          · rw [if_neg hi0, u32add_eq (by omega)]
            omega
        generalize hR : reference_area_size inst pos false = R at hb ⊢
        have hrel : relative_position R pseudo_rand < R :=
          relative_position_lt hb.1 (by omega) hr
        rw [u64_eq_of_lt (by omega), Nat.mod_eq_of_lt (by omega)]
        unfold fully_written
        rw [if_pos hpass, if_neg (by simp)]
        omega
  · -- later passes
    have hLseg : u32sub inst.lane_length inst.segment_length
        = 3 * inst.segment_length := by
      rw [u32sub_eq (by omega) (by omega)]
      omega
    have hb : 1 ≤ reference_area_size inst pos same_lane ∧
        reference_area_size inst pos same_lane
          ≤ 3 * inst.segment_length + pos.index - 1 ∧
        (same_lane = false →
          reference_area_size inst pos same_lane ≤ 3 * inst.segment_length) := by
      unfold reference_area_size
      rw [if_neg hpass]
      cases same_lane with
      | true =>
        rw [if_pos rfl, hLseg, u32add_eq (by omega)]
        rw [u32sub_eq (by omega) (by omega)]
        refine ⟨by omega, by omega, by simp⟩
      | false =>
        rw [if_neg (by simp), hLseg]
        by_cases hi0 : pos.index = 0
        · rw [if_pos hi0, u32add_sub_one (by omega) (by omega)]
          refine ⟨by omega, by omega, fun _ => by omega⟩
        · rw [if_neg hi0, u32add_eq (by omega)]
          refine ⟨by omega, by omega, fun _ => by omega⟩
    generalize hR : reference_area_size inst pos same_lane = R at hb ⊢
    obtain ⟨hb1, hb2, hb3⟩ := hb
    have hrel : relative_position R pseudo_rand < R :=
      relative_position_lt hb1 (by omega) hr
    by_cases hs3 : pos.slice = 3
    · have hstart : start_position inst pos = 0 := by
        unfold start_position
        rw [show ARGON2_SYNC_POINTS = 4 from rfl, if_pos hpass, if_pos (by omega)]
      rw [hstart]
      rw [u64_eq_of_lt (by omega), Nat.mod_eq_of_lt (by omega)]
      unfold fully_written
      rw [if_neg hpass]
      cases same_lane with
      | true =>
        rw [if_pos rfl]
        refine ⟨by omega, ?_⟩
        rw [hs3]
        omega
      | false =>
        rw [if_neg (by simp)]
        refine ⟨by omega, Or.inl ?_⟩
        rw [hs3]
        have := hb3 rfl
        omega
    · have hsucc : (pos.slice + 1) * inst.segment_length
          = pos.slice * inst.segment_length + inst.segment_length := by ring
      have hstart : start_position inst pos =
          pos.slice * inst.segment_length + inst.segment_length := by
        unfold start_position
        rw [show ARGON2_SYNC_POINTS = 4 from rfl, if_pos hpass,
          if_neg (by omega : ¬ pos.slice = 4 - 1), u32mul_eq (by omega)]
        exact hsucc
      rw [hstart]
      rw [u64_eq_of_lt (by omega)]
      have hmod : ∀ m : Nat, m < 2 * inst.lane_length →
          m % inst.lane_length =
            (if m < inst.lane_length then m else m - inst.lane_length) := by
        intro m hm
        split
        · exact Nat.mod_eq_of_lt (by omega)
        · rw [Nat.mod_eq_sub_mod (by omega)]
          exact Nat.mod_eq_of_lt (by omega)
      unfold fully_written
      rw [if_neg hpass]
      cases same_lane with
      | true =>
        rw [if_pos rfl, hmod _ (by omega)]
        split
        · exact ⟨by omega, by omega⟩
        · exact ⟨by omega, by omega⟩
      | false =>
        rw [if_neg (by simp), hmod _ (by omega)]
        have hb3f := hb3 rfl
        split
        · exact ⟨by omega, Or.inr (by omega)⟩
        · exact ⟨by omega, Or.inl (by omega)⟩

/-- A segment region sits inside its lane's address interval. -/
lemma seg_region_lane_range {inst : Argon2_instance_t} {lane slice o : Nat}
    (hI : ValidInstance inst) (hs : slice < 4)
    (h : seg_region inst lane slice o) :
    lane * inst.lane_length ≤ o ∧ o < lane * inst.lane_length + inst.lane_length := by
  obtain ⟨hseg, hLL, hL32, hlanes⟩ := hI
  rw [show ARGON2_SYNC_POINTS = 4 from rfl] at hLL
  obtain ⟨h1, h2⟩ := h
  have hsucc : (slice + 1) * inst.segment_length
      = slice * inst.segment_length + inst.segment_length := by ring
  have hs3 : slice * inst.segment_length ≤ 3 * inst.segment_length :=
    Nat.mul_le_mul_right inst.segment_length (by omega)
  omega

/-- Address intervals of distinct lanes are disjoint. -/
lemma lanes_disjoint {L a b o : Nat} (hne : a ≠ b) (h1 : a * L ≤ o)
    (h2 : o < a * L + L) (h3 : b * L ≤ o) (h4 : o < b * L + L) : False := by
  rcases Nat.lt_or_ge a b with h | h
  · have h5 : (a + 1) * L ≤ b * L := Nat.mul_le_mul_right L (by omega)
    have h6 : (a + 1) * L = a * L + L := by ring
    omega
  · rcases Nat.lt_or_ge b a with h7 | h7
    · have h5 : (b + 1) * L ≤ a * L := Nat.mul_le_mul_right L (by omega)
      have h6 : (b + 1) * L = b * L + L := by ring
      omega
    · exact hne (by omega)

/-- One fill step writes only the current offset. -/
lemma fill_block_writes {G : Block → Block → Block}
    {addr : Nat → Nat → Nat → Nat → Nat} {inst : Argon2_instance_t}
    {pass lane slice index : Nat} {mem : Mem} {o : Nat}
    (ho : o ≠ curr_offset inst lane slice index) :
    fill_block G addr inst pass lane slice index mem o = mem o := by
  unfold fill_block
  exact Function.update_noteq ho _ _

/-- The current offset lies in the segment's own region. -/
lemma curr_offset_mem_region {inst : Argon2_instance_t} {lane slice index : Nat}
    (hidx : index < inst.segment_length) :
    seg_region inst lane slice (curr_offset inst lane slice index) := by
  unfold seg_region curr_offset
  have hsucc : (slice + 1) * inst.segment_length
      = slice * inst.segment_length + inst.segment_length := by ring
  omega

/-- Folding fill steps over in-segment indices writes only inside the
segment's region. -/
lemma fill_fold_frame {G : Block → Block → Block}
    {addr : Nat → Nat → Nat → Nat → Nat} {inst : Argon2_instance_t}
    {pass lane slice : Nat} (idx : List Nat) (mem : Mem) (o : Nat)
    (hall : ∀ i ∈ idx, i < inst.segment_length)
    (ho : ¬ seg_region inst lane slice o) :
    idx.foldl (fun m i => fill_block G addr inst pass lane slice i m) mem o = mem o := by
  induction idx generalizing mem with
  | nil => rfl
  | cons a as ih =>
    rw [List.foldl_cons]
    rw [ih _ (fun i hi => hall i (List.mem_cons_of_mem a hi))]
    apply fill_block_writes
    intro hEq
    apply ho
    rw [hEq]
    exact curr_offset_mem_region (hall a (List.mem_cons_self a as))

/-- The segment filler writes only inside its own (lane, slice) region. -/
lemma fill_segment_mem_frame {G : Block → Block → Block}
    {addr : Nat → Nat → Nat → Nat → Nat} {inst : Argon2_instance_t}
    {pass lane slice : Nat} {mem : Mem} {o : Nat}
    (ho : ¬ seg_region inst lane slice o) :
    fill_segment_mem G addr inst pass lane slice mem o = mem o := by
  unfold fill_segment_mem
  apply fill_fold_frame _ _ _ _ ho
  intro i hi
  rw [List.mem_range'_1] at hi
  have hst : starting_index pass slice = 2 ∨ starting_index pass slice = 0 := by
    unfold starting_index
    split
    · left
      rfl
    · right
      rfl
  omega

/-- One fill step in lane `lane` reads nothing from the (lane2, slice)
region of a different lane `lane2`: its result outside that region depends
only on memory outside that region.  This is the heart of why concurrent
lanes within a slice cannot race. -/
lemma fill_block_congr {G : Block → Block → Block}
    {addr : Nat → Nat → Nat → Nat → Nat} {inst : Argon2_instance_t}
    {pass lane lane2 slice index : Nat} (m₁ m₂ : Mem)
    (hI : ValidInstance inst) (hs : slice < 4) (hne : lane ≠ lane2)
    (hidx : index < inst.segment_length)
    (hstart2 : pass = 0 ∧ slice = 0 → 2 ≤ index)
    (hagree : ∀ o, ¬ seg_region inst lane2 slice o → m₁ o = m₂ o) :
    ∀ o, ¬ seg_region inst lane2 slice o →
      fill_block G addr inst pass lane slice index m₁ o
        = fill_block G addr inst pass lane slice index m₂ o := by
  have hseg := hI.1
  have hLL : inst.lane_length = 4 * inst.segment_length := by
    have h := hI.2.1
    rw [show ARGON2_SYNC_POINTS = 4 from rfl] at h
    exact h
  have hLpos : 0 < inst.lane_length := by omega
  have hsucc : (slice + 1) * inst.segment_length
      = slice * inst.segment_length + inst.segment_length := by ring
  have hs3 : slice * inst.segment_length ≤ 3 * inst.segment_length :=
    Nat.mul_le_mul_right inst.segment_length (by omega)
  -- the previous block is in the current lane, hence outside lane2's region
  have hprev_range : lane * inst.lane_length ≤ prev_offset inst lane slice index ∧
      prev_offset inst lane slice index < lane * inst.lane_length + inst.lane_length := by
    unfold prev_offset
    have h2 : slice = 0 ∨ inst.segment_length ≤ slice * inst.segment_length := by
      rcases Nat.eq_zero_or_pos slice with h | h
      · exact Or.inl h
      · exact Or.inr (Nat.le_mul_of_pos_left inst.segment_length h)
    split
    · omega
    · rename_i hcase
      rcases h2 with h2 | h2
      · have h3 : ¬ index = 0 := fun hc => hcase ⟨h2, hc⟩
        rw [h2]
        omega
      · omega
  have hprev_notin : ¬ seg_region inst lane2 slice (prev_offset inst lane slice index) := by
    intro hc
    have hr := seg_region_lane_range hI hs hc
    exact lanes_disjoint hne hprev_range.1 hprev_range.2 hr.1 hr.2
  have hprev_eq : m₁ (prev_offset inst lane slice index)
      = m₂ (prev_offset inst lane slice index) := hagree _ hprev_notin
  have hpr : pseudo_rand_of addr inst pass lane slice index m₁
      = pseudo_rand_of addr inst pass lane slice index m₂ := by
    unfold pseudo_rand_of
    cases htype : inst.type
    · rw [hprev_eq]
    · rfl
  have hrefidx : ref_index_of addr inst pass lane slice index m₁
      = ref_index_of addr inst pass lane slice index m₂ := by
    unfold ref_index_of
    rw [hpr]
  have hrefoff : ref_offset_of addr inst pass lane slice index m₁
      = ref_offset_of addr inst pass lane slice index m₂ := by
    unfold ref_offset_of
    rw [hpr, hrefidx]
  have hrefidx_lt : ref_index_of addr inst pass lane slice index m₁ < inst.lane_length := by
    unfold ref_index_of index_alpha
    exact Nat.mod_lt _ hLpos
  -- the reference block is outside lane2's currently-written region
  have href_notin : ¬ seg_region inst lane2 slice
      (ref_offset_of addr inst pass lane slice index m₁) := by
    intro hc
    by_cases hrl : ref_lane_of inst pass slice lane
        (pseudo_rand_of addr inst pass lane slice index m₁) = lane2
    · -- cross-lane reference into lane2: index_alpha stays clear of its slice
      have hnot00 : ¬ (pass = 0 ∧ slice = 0) := by
        intro hc00
        unfold ref_lane_of at hrl
        rw [if_pos hc00] at hrl
        exact hne hrl
      have hsl : (decide (ref_lane_of inst pass slice lane
          (pseudo_rand_of addr inst pass lane slice index m₁) = lane)) = false := by
        apply decide_eq_false
        rw [hrl]
        exact fun hh => hne hh.symm
      have hria : ref_index_of addr inst pass lane slice index m₁
          = index_alpha inst ⟨pass, lane, slice, index⟩
              (pseudo_rand_of addr inst pass lane slice index m₁ % 4294967296) false := by
        unfold ref_index_of
        rw [hsl]
      have hmem := index_alpha_mem_fully_written inst ⟨pass, lane, slice, index⟩
        (pseudo_rand_of addr inst pass lane slice index m₁ % 4294967296) false hI
        ⟨hs, hidx, fun hc00 => (hnot00 hc00).elim⟩
        (Nat.mod_lt _ (by norm_num))
      rw [← hria] at hmem
      unfold fully_written at hmem
      dsimp only at hmem
      unfold seg_region ref_offset_of at hc
      rw [hrl] at hc
      by_cases hp0 : pass = 0
      · rw [if_pos hp0, if_neg (by simp)] at hmem
        omega
      · rw [if_neg hp0, if_neg (by simp)] at hmem
        omega
    · -- reference into some other lane: intervals are disjoint
      have hr := seg_region_lane_range hI hs hc
      have hro : ref_offset_of addr inst pass lane slice index m₁
          = ref_lane_of inst pass slice lane
              (pseudo_rand_of addr inst pass lane slice index m₁) * inst.lane_length
            + ref_index_of addr inst pass lane slice index m₁ := rfl
      rw [hro] at hc
      exact lanes_disjoint hrl (by omega) (by omega) hr.1 hr.2
  have href_eq : m₁ (ref_offset_of addr inst pass lane slice index m₁)
      = m₂ (ref_offset_of addr inst pass lane slice index m₁) := hagree _ href_notin
  have hcomp : compress_result G addr inst pass lane slice index m₁
      = compress_result G addr inst pass lane slice index m₂ := by
    unfold compress_result
    rw [hprev_eq, ← hrefoff, href_eq]
  have hcur_notin : ¬ seg_region inst lane2 slice (curr_offset inst lane slice index) := by
    intro hc
    have hr := seg_region_lane_range hI hs hc
    have hin : seg_region inst lane slice (curr_offset inst lane slice index) :=
      curr_offset_mem_region hidx
    have hcr := seg_region_lane_range hI hs hin
    exact lanes_disjoint hne hcr.1 hcr.2 hr.1 hr.2
  intro o ho
  unfold fill_block
  by_cases hoc : o = curr_offset inst lane slice index
  · rw [hoc, Function.update_same, Function.update_same]
    rw [hcomp, hagree _ hcur_notin]
  · rw [Function.update_noteq hoc, Function.update_noteq hoc]
    exact hagree o ho

/-- Folding fill steps in lane `lane` preserves agreement of two memories
outside the (lane2, slice) region of a different lane. -/
lemma fill_fold_congr {G : Block → Block → Block}
    {addr : Nat → Nat → Nat → Nat → Nat} {inst : Argon2_instance_t}
    {pass lane lane2 slice : Nat} (idx : List Nat) (m₁ m₂ : Mem)
    (hI : ValidInstance inst) (hs : slice < 4) (hne : lane ≠ lane2)
    (hall : ∀ i ∈ idx, i < inst.segment_length ∧ (pass = 0 ∧ slice = 0 → 2 ≤ i))
    (hagree : ∀ o, ¬ seg_region inst lane2 slice o → m₁ o = m₂ o) :
    ∀ o, ¬ seg_region inst lane2 slice o →
      idx.foldl (fun m i => fill_block G addr inst pass lane slice i m) m₁ o
        = idx.foldl (fun m i => fill_block G addr inst pass lane slice i m) m₂ o := by
  induction idx generalizing m₁ m₂ with
  | nil => exact hagree
  | cons a as ih =>
    intro o ho
    rw [List.foldl_cons, List.foldl_cons]
    have ha := hall a (List.mem_cons_self a as)
    exact ih _ _ (fun i hi => hall i (List.mem_cons_of_mem a hi))
      (fill_block_congr m₁ m₂ hI hs hne ha.1 ha.2 hagree) o ho

/-- The segment filler for lane `lane` preserves agreement of two memories
outside the (lane2, slice) region of a different lane. -/
lemma fill_segment_mem_congr {G : Block → Block → Block}
    {addr : Nat → Nat → Nat → Nat → Nat} {inst : Argon2_instance_t}
    {pass lane lane2 slice : Nat} (m₁ m₂ : Mem)
    (hI : ValidInstance inst) (hs : slice < 4) (hne : lane ≠ lane2)
    (hagree : ∀ o, ¬ seg_region inst lane2 slice o → m₁ o = m₂ o) :
    ∀ o, ¬ seg_region inst lane2 slice o →
      fill_segment_mem G addr inst pass lane slice m₁ o
        = fill_segment_mem G addr inst pass lane slice m₂ o := by
  unfold fill_segment_mem
  apply fill_fold_congr _ _ _ hI hs hne _ hagree
  intro i hi
  rw [List.mem_range'_1] at hi
  have hst : starting_index pass slice = 2 ∨ starting_index pass slice = 0 := by
    unfold starting_index
    split
    · left
      rfl
    · right
      rfl
  constructor
  · omega
  · intro hc
    have : starting_index pass slice = 2 := by
      unfold starting_index
      rw [if_pos hc]
    omega

/-- Two segment fillers of the same (pass, slice) on distinct lanes commute:
each writes only its own region and reads nothing from the other's region. -/
lemma fill_segment_mem_comm {G : Block → Block → Block}
    {addr : Nat → Nat → Nat → Nat → Nat} {inst : Argon2_instance_t}
    {pass slice : Nat} (hI : ValidInstance inst) (hs : slice < 4)
    (l l2 : Nat) (hne : l ≠ l2) (mem : Mem) :
    fill_segment_mem G addr inst pass l slice
        (fill_segment_mem G addr inst pass l2 slice mem)
      = fill_segment_mem G addr inst pass l2 slice
          (fill_segment_mem G addr inst pass l slice mem) := by
  funext o
  have hdisj : ∀ p : Nat, seg_region inst l slice p → seg_region inst l2 slice p → False := by
    intro p h1 h2
    have hr1 := seg_region_lane_range hI hs h1
    have hr2 := seg_region_lane_range hI hs h2
    exact lanes_disjoint hne hr1.1 hr1.2 hr2.1 hr2.2
  by_cases h1 : seg_region inst l slice o
  · have h2 : ¬ seg_region inst l2 slice o := fun hc => hdisj o h1 hc
    have hLHS : fill_segment_mem G addr inst pass l slice
        (fill_segment_mem G addr inst pass l2 slice mem) o
        = fill_segment_mem G addr inst pass l slice mem o := by
      apply fill_segment_mem_congr _ _ hI hs hne _ _ h2
      intro p hp
      exact fill_segment_mem_frame hp
    rw [hLHS, fill_segment_mem_frame h2]
  · by_cases h2 : seg_region inst l2 slice o
    · have h1n : ¬ seg_region inst l slice o := h1
      have hRHS : fill_segment_mem G addr inst pass l2 slice
          (fill_segment_mem G addr inst pass l slice mem) o
          = fill_segment_mem G addr inst pass l2 slice mem o := by
        apply fill_segment_mem_congr _ _ hI hs (fun hc => hne hc.symm) _ _ h1n
        intro p hp
        exact fill_segment_mem_frame hp
      rw [hRHS, fill_segment_mem_frame h1n]
    · rw [fill_segment_mem_frame h1, fill_segment_mem_frame h2,
        fill_segment_mem_frame h2, fill_segment_mem_frame h1]

/-- Filling the lanes of one (pass, slice) unit in any order gives the same
memory: lane order, and hence thread scheduling, cannot affect the result. -/
lemma fill_slice_mem_perm {G : Block → Block → Block}
    {addr : Nat → Nat → Nat → Nat → Nat} {inst : Argon2_instance_t}
    {pass slice : Nat} (hI : ValidInstance inst) (hs : slice < 4)
    (ord₁ ord₂ : List Nat) (hperm : List.Perm ord₁ ord₂) (mem : Mem) :
    fill_slice_mem G addr inst pass slice ord₁ mem
      = fill_slice_mem G addr inst pass slice ord₂ mem := by
  unfold fill_slice_mem
  apply hperm.foldl_eq'
  intro x hx y hy z
  by_cases hxy : x = y
  · rw [hxy]
  · exact fill_segment_mem_comm hI hs y x (fun hc => hxy hc.symm) z

/-- Pointwise-equal fold steps over the same list give the same fold. -/
lemma foldl_congr_mem {α β : Type} {f g : β → α → β} (l : List α)
    (h : ∀ a ∈ l, ∀ b, f b a = g b a) (b : β) :
    l.foldl f b = l.foldl g b := by
  induction l generalizing b with
  | nil => rfl
  | cons x xs ih =>
    rw [List.foldl_cons, List.foldl_cons, h x (List.mem_cons_self x xs)]
    exact ih (fun a ha b2 => h a (List.mem_cons_of_mem x ha) b2) _

/-- The whole multi-pass fill is invariant under the per-(pass, slice) lane
order: any two schedules that are permutations of each other produce the
same memory. -/
lemma fill_memory_blocks_mem_sched_invariant {G : Block → Block → Block}
    {addr : Nat → Nat → Nat → Nat → Nat} {inst : Argon2_instance_t}
    (hI : ValidInstance inst) (sched₁ sched₂ : Nat → Nat → List Nat)
    (hp : ∀ p s, List.Perm (sched₁ p s) (sched₂ p s)) (mem : Mem) :
    fill_memory_blocks_mem G addr inst sched₁ mem
      = fill_memory_blocks_mem G addr inst sched₂ mem := by
  unfold fill_memory_blocks_mem
  apply foldl_congr_mem
  intro p hpm m
  apply foldl_congr_mem
  intro s hsm m2
  rw [show ARGON2_SYNC_POINTS = 4 from rfl] at hsm
  rw [List.mem_range] at hsm
  exact fill_slice_mem_perm hI hsm _ _ (hp p s) m2

lemma mkInstance_segment_length (ctx : Argon2_Context) (ty : Argon2_type) :
    (mkInstance ctx ty).segment_length =
      (if ctx.m_cost < 2 * ARGON2_SYNC_POINTS * ctx.lanes
       then 2 * ARGON2_SYNC_POINTS * ctx.lanes else ctx.m_cost)
        / (ctx.lanes * ARGON2_SYNC_POINTS) := rfl

lemma mkInstance_lane_length (ctx : Argon2_Context) (ty : Argon2_type) :
    (mkInstance ctx ty).lane_length =
      (mkInstance ctx ty).segment_length * ARGON2_SYNC_POINTS := rfl

lemma mkInstance_memory_blocks (ctx : Argon2_Context) (ty : Argon2_type) :
    (mkInstance ctx ty).memory_blocks =
      (mkInstance ctx ty).segment_length * (ctx.lanes * ARGON2_SYNC_POINTS) := rfl

lemma mkInstance_lanes (ctx : Argon2_Context) (ty : Argon2_type) :
    (mkInstance ctx ty).lanes = ctx.lanes := rfl

lemma mkInstance_passes (ctx : Argon2_Context) (ty : Argon2_type) :
    (mkInstance ctx ty).passes = ctx.t_cost := rfl

lemma mkInstance_threads (ctx : Argon2_Context) (ty : Argon2_type) :
    (mkInstance ctx ty).threads = ctx.threads := rfl

set_option maxHeartbeats 2000000

/-- A context that passes validation yields a well-formed instance. -/
lemma mkInstance_valid (ctx : Argon2_Context) (ty : Argon2_type)
    (hv : validate_inputs ctx = .ARGON2_OK) :
    ValidInstance (mkInstance ctx ty) := by
  unfold validate_inputs at hv
  split at hv
  · exact Argon2ErrorCode.noConfusion hv
  split at hv
  · exact Argon2ErrorCode.noConfusion hv
  split at hv
  · exact Argon2ErrorCode.noConfusion hv
  split at hv
  · exact Argon2ErrorCode.noConfusion hv
  split at hv
  · exact Argon2ErrorCode.noConfusion hv
  split at hv
  · exact Argon2ErrorCode.noConfusion hv
  split at hv
  · exact Argon2ErrorCode.noConfusion hv
  split at hv
  · exact Argon2ErrorCode.noConfusion hv
  split at hv
  · exact Argon2ErrorCode.noConfusion hv
  split at hv
  · exact Argon2ErrorCode.noConfusion hv
  split at hv
  · exact Argon2ErrorCode.noConfusion hv
  split at hv
  · exact Argon2ErrorCode.noConfusion hv
  rename_i h1 h2 h3 h4 h5 h6 h7 h8 h9 h10 h11 h12
  rw [show ARGON2_SYNC_POINTS = 4 from rfl] at h6
  rw [show ARGON2_MAX_MEMORY = 4294967295 from rfl] at h7
  rw [show ARGON2_MIN_LANES = 1 from rfl] at h9
  rw [show ARGON2_MAX_LANES = 16777215 from rfl] at h10
  have hlanes : 1 ≤ ctx.lanes := by omega
  have hmb0 : 2 * 4 * ctx.lanes ≤
      (if ctx.m_cost < 2 * ARGON2_SYNC_POINTS * ctx.lanes
       then 2 * ARGON2_SYNC_POINTS * ctx.lanes else ctx.m_cost) := by
    rw [show ARGON2_SYNC_POINTS = 4 from rfl]
    split
    · omega
    · omega
  have hmb0ub :
      (if ctx.m_cost < 2 * ARGON2_SYNC_POINTS * ctx.lanes
       then 2 * ARGON2_SYNC_POINTS * ctx.lanes else ctx.m_cost) ≤ 4294967295 := by
    rw [show ARGON2_SYNC_POINTS = 4 from rfl]
    split
    · omega
    · omega
  have hseg2 : 2 ≤ (mkInstance ctx ty).segment_length := by
    rw [mkInstance_segment_length]
    have hq : 2 * 4 * ctx.lanes = 2 * (ctx.lanes * ARGON2_SYNC_POINTS) := by
      rw [show ARGON2_SYNC_POINTS = 4 from rfl]
      ring
    have hdd : 2 * 4 * ctx.lanes / (ctx.lanes * ARGON2_SYNC_POINTS) ≤
        (if ctx.m_cost < 2 * ARGON2_SYNC_POINTS * ctx.lanes
         then 2 * ARGON2_SYNC_POINTS * ctx.lanes else ctx.m_cost)
          / (ctx.lanes * ARGON2_SYNC_POINTS) :=
      Nat.div_le_div_right hmb0
    rw [hq, Nat.mul_div_cancel 2
      (by rw [show ARGON2_SYNC_POINTS = 4 from rfl]; omega)] at hdd
    exact hdd
  have hsegmul : (mkInstance ctx ty).segment_length * (ctx.lanes * ARGON2_SYNC_POINTS) ≤
      (if ctx.m_cost < 2 * ARGON2_SYNC_POINTS * ctx.lanes
       then 2 * ARGON2_SYNC_POINTS * ctx.lanes else ctx.m_cost) := by
    rw [mkInstance_segment_length]
    exact Nat.div_mul_le_self _ _
  have hLub : (mkInstance ctx ty).segment_length * 4 ≤
      (mkInstance ctx ty).segment_length * (ctx.lanes * ARGON2_SYNC_POINTS) := by
    apply Nat.mul_le_mul_left
    rw [show ARGON2_SYNC_POINTS = 4 from rfl]
    have : 1 * 4 ≤ ctx.lanes * 4 := Nat.mul_le_mul_right 4 hlanes
    omega
  refine ⟨hseg2, ?_, ?_, ?_⟩
  · rw [mkInstance_lane_length, show ARGON2_SYNC_POINTS = 4 from rfl]
    ring
  · rw [mkInstance_lane_length, show ARGON2_SYNC_POINTS = 4 from rfl]
    omega
  · rw [mkInstance_lanes]
    exact hlanes

set_option maxHeartbeats 200000

/-- Shape of a run that passes validation: allocation either fails (specific
error, no tag) or the memory is initialized, filled and finalized. -/
lemma argon2_core_ok_shape (G : Block → Block → Block)
    (addr : Nat → Nat → Nat → Nat → Nat) (H : List Nat → Nat → List Nat)
    (alloc : Nat → Option Mem) (sched : Nat → Nat → List Nat)
    (ctx : Argon2_Context) (ty : Argon2_type)
    (hv : validate_inputs ctx = .ARGON2_OK) :
    argon2_core G addr H alloc sched ctx ty =
      match alloc (mkInstance ctx ty).memory_blocks with
      | none => (.ARGON2_MEMORY_ALLOCATION_ERROR, none, [.evValidate, .evAllocCall])
      | some mem0 =>
        (.ARGON2_OK,
         some (finalize_tag H (mkInstance ctx ty)
           (fill_memory_blocks_mem G addr (mkInstance ctx ty) sched
             (fill_firsts_blocks_mem H (mkInstance ctx ty) (initial_hash H ctx ty) mem0))
           ctx.out_len),
         [.evValidate, .evAllocCall, .evAllocSuccess, .evInitialize,
          .evFill, .evFinalize, .evFree]) := by
  unfold argon2_core
  rw [hv]
  rw [if_neg (fun hc => hc rfl)]
  unfold initialize_blocks
  cases halloc : alloc (mkInstance ctx ty).memory_blocks with
  | none => rfl
  | some mem0 => rfl

/-- Runs that differ only in the thread-count hint and in the per-slice lane
order produce identical results: the helper behind the reproducibility
claim. -/
lemma argon2_core_threads_sched_eq (G : Block → Block → Block)
    (addr : Nat → Nat → Nat → Nat → Nat) (H : List Nat → Nat → List Nat)
    (alloc : Nat → Option Mem) (ctx : Argon2_Context) (ty : Argon2_type)
    (t₁ t₂ : Nat) (sched₁ sched₂ : Nat → Nat → List Nat)
    (hv₁ : validate_inputs { ctx with threads := t₁ } = .ARGON2_OK)
    (hv₂ : validate_inputs { ctx with threads := t₂ } = .ARGON2_OK)
    (hs₁ : ∀ p s, List.Perm (sched₁ p s) (List.range ctx.lanes))
    (hs₂ : ∀ p s, List.Perm (sched₂ p s) (List.range ctx.lanes)) :
    argon2_core G addr H alloc sched₁ { ctx with threads := t₁ } ty
      = argon2_core G addr H alloc sched₂ { ctx with threads := t₂ } ty := by
  rw [argon2_core_ok_shape G addr H alloc sched₁ _ ty hv₁]
  rw [argon2_core_ok_shape G addr H alloc sched₂ _ ty hv₂]
  have hmb : (mkInstance { ctx with threads := t₂ } ty).memory_blocks
      = (mkInstance { ctx with threads := t₁ } ty).memory_blocks := rfl
  rw [hmb]
  have hIv : ValidInstance (mkInstance { ctx with threads := t₂ } ty) :=
    mkInstance_valid _ ty hv₂
  have hperm : ∀ p s, List.Perm (sched₁ p s) (sched₂ p s) := fun p s =>
    (hs₁ p s).trans (hs₂ p s).symm
  cases halloc : alloc (mkInstance { ctx with threads := t₁ } ty).memory_blocks with
  | none => rfl
  | some mem0 =>
    have htag : finalize_tag H (mkInstance { ctx with threads := t₁ } ty)
        (fill_memory_blocks_mem G addr (mkInstance { ctx with threads := t₁ } ty) sched₁
          (fill_firsts_blocks_mem H (mkInstance { ctx with threads := t₁ } ty)
            (initial_hash H { ctx with threads := t₁ } ty) mem0))
        (Argon2_Context.out_len { ctx with threads := t₁ })
      = finalize_tag H (mkInstance { ctx with threads := t₂ } ty)
        (fill_memory_blocks_mem G addr (mkInstance { ctx with threads := t₂ } ty) sched₁
          (fill_firsts_blocks_mem H (mkInstance { ctx with threads := t₂ } ty)
            (initial_hash H { ctx with threads := t₂ } ty) mem0))
        (Argon2_Context.out_len { ctx with threads := t₂ }) := rfl
    show (Argon2ErrorCode.ARGON2_OK,
      some (finalize_tag H (mkInstance { ctx with threads := t₁ } ty)
        (fill_memory_blocks_mem G addr (mkInstance { ctx with threads := t₁ } ty) sched₁
          (fill_firsts_blocks_mem H (mkInstance { ctx with threads := t₁ } ty)
            (initial_hash H { ctx with threads := t₁ } ty) mem0))
        (Argon2_Context.out_len { ctx with threads := t₁ })),
      [CoreEvent.evValidate, CoreEvent.evAllocCall, CoreEvent.evAllocSuccess,
       CoreEvent.evInitialize, CoreEvent.evFill, CoreEvent.evFinalize,
       CoreEvent.evFree])
      = (Argon2ErrorCode.ARGON2_OK,
      some (finalize_tag H (mkInstance { ctx with threads := t₂ } ty)
        (fill_memory_blocks_mem G addr (mkInstance { ctx with threads := t₂ } ty) sched₂
          (fill_firsts_blocks_mem H (mkInstance { ctx with threads := t₂ } ty)
            (initial_hash H { ctx with threads := t₂ } ty) mem0))
        (Argon2_Context.out_len { ctx with threads := t₂ })),
      [CoreEvent.evValidate, CoreEvent.evAllocCall, CoreEvent.evAllocSuccess,
       CoreEvent.evInitialize, CoreEvent.evFill, CoreEvent.evFinalize,
       CoreEvent.evFree])
    rw [htag]
    rw [fill_memory_blocks_mem_sched_invariant hIv sched₁ sched₂ hperm]

/-- Claim C1, counterexample to the claim as stated: at the valid position
pass 1, slice 0, index 1 of a valid two-pass instance (one lane, segments of
two blocks), with pseudo-random value 4294967295, `index_alpha` returns
in-lane position 2 — exactly the immediate successor of the block being
written (position 1).  The claim's description of the later-pass region as
"the whole memory minus the block being written and its successor" therefore
does not hold of the returned index, although position 2 is fully written
(it was produced during pass 0). -/
theorem index_alpha_successor_counterexample :
    ValidInstance cexInst ∧ ValidPosition cexInst cexPos true ∧
    0 < cexPos.pass ∧ cexPos.pass < cexInst.passes ∧
    index_alpha cexInst cexPos 4294967295 true
      = cexPos.slice * cexInst.segment_length + cexPos.index + 1 := by
  refine ⟨by decide, by decide, by decide, by decide, by decide⟩

/-- Claim C1 (amended): for every valid instance, position, 32-bit
pseudo-random value and same-lane flag (same-lane forced during pass 0 slice
0), the index returned by `index_alpha` addresses a block already fully
written under the visibility rules: on pass 0, strictly before the current
block in the same lane, or in a strictly earlier slice cross-lane; on later
passes, any in-lane position other than the block being written for
same-lane references, and any position outside the current slice for
cross-lane references.  The immediate successor of the block being written
may be returned when it lies beyond the current slice, but it is then
already fully written; a block not yet fully written is never addressed. -/
theorem index_alpha_returns_fully_written (inst : Argon2_instance_t)
    (pos : Argon2_position_t) (pseudo_rand : Nat) (same_lane : Bool)
    (hI : ValidInstance inst) (hP : ValidPosition inst pos same_lane)
    (hr : pseudo_rand < 4294967296) :
    fully_written inst pos same_lane
      (index_alpha inst pos pseudo_rand same_lane) :=
  index_alpha_mem_fully_written inst pos pseudo_rand same_lane hI hP hr

/-- Witness for claim C1: the amended theorem applied at a concrete valid
input. -/
theorem index_alpha_returns_fully_written_witness :
    ValidInstance cexInst ∧
    ValidPosition cexInst ⟨0, 0, 1, 1⟩ true ∧ (5 : Nat) < 4294967296 ∧
    fully_written cexInst ⟨0, 0, 1, 1⟩ true
      (index_alpha cexInst ⟨0, 0, 1, 1⟩ 5 true) :=
  ⟨by decide, by decide, by decide,
   index_alpha_returns_fully_written cexInst ⟨0, 0, 1, 1⟩ 5 true
     (by decide) (by decide) (by decide)⟩

/-- Claim C2: for a fixed input tuple (password, salt, time cost, memory
cost, lanes, type, output length), two `argon2_core` invocations produce
bit-for-bit identical results — error code, output tag and step trace — even
when the two invocations use different thread counts and their slices
process lanes in different orders; the `threads` field has no influence on
the tag. -/
theorem argon2_core_tag_thread_independent (G : Block → Block → Block)
    (addr : Nat → Nat → Nat → Nat → Nat) (H : List Nat → Nat → List Nat)
    (alloc : Nat → Option Mem) (ctx : Argon2_Context) (ty : Argon2_type)
    (t₁ t₂ : Nat) (sched₁ sched₂ : Nat → Nat → List Nat)
    (hv₁ : validate_inputs { ctx with threads := t₁ } = .ARGON2_OK)
    (hv₂ : validate_inputs { ctx with threads := t₂ } = .ARGON2_OK)
    (hs₁ : ∀ p s, List.Perm (sched₁ p s) (List.range ctx.lanes))
    (hs₂ : ∀ p s, List.Perm (sched₂ p s) (List.range ctx.lanes)) :
    argon2_core G addr H alloc sched₁ { ctx with threads := t₁ } ty
      = argon2_core G addr H alloc sched₂ { ctx with threads := t₂ } ty :=
  argon2_core_threads_sched_eq G addr H alloc ctx ty t₁ t₂ sched₁ sched₂
    hv₁ hv₂ hs₁ hs₂

/-- Witness for claim C2: a concrete run with thread counts 1 and 2. -/
theorem argon2_core_tag_thread_independent_witness :
    argon2_core G0 addr0 H0 alloc0 sched0 { ctx0 with threads := 1 } .Argon2_i
      = argon2_core G0 addr0 H0 alloc0 sched0 { ctx0 with threads := 2 } .Argon2_i :=
  argon2_core_tag_thread_independent G0 addr0 H0 alloc0 ctx0 .Argon2_i 1 2
    sched0 sched0 (by decide) (by decide)
    (fun p s => by
      show List.Perm [0] (List.range 1)
      exact List.Perm.refl _)
    (fun p s => by
      show List.Perm [0] (List.range 1)
      exact List.Perm.refl _)

/-- Claim C3: for every constructed instance the size fields satisfy
memory_blocks = lanes × lane_length and lane_length = 4 × segment_length,
and memory_blocks is a multiple of 4 × lanes.  (The fields are never
modified after construction; see the frame theorem for claim C8.) -/
theorem mkInstance_memory_accounting (ctx : Argon2_Context) (ty : Argon2_type) :
    (mkInstance ctx ty).memory_blocks
      = (mkInstance ctx ty).lanes * (mkInstance ctx ty).lane_length ∧
    (mkInstance ctx ty).lane_length = 4 * (mkInstance ctx ty).segment_length ∧
    (4 * (mkInstance ctx ty).lanes) ∣ (mkInstance ctx ty).memory_blocks := by
  refine ⟨?_, ?_, ?_⟩
  · rw [mkInstance_memory_blocks, mkInstance_lanes, mkInstance_lane_length,
      show ARGON2_SYNC_POINTS = 4 from rfl]
    ring
  · rw [mkInstance_lane_length, show ARGON2_SYNC_POINTS = 4 from rfl]
    ring
  · rw [mkInstance_memory_blocks, mkInstance_lanes,
      show ARGON2_SYNC_POINTS = 4 from rfl]
    exact ⟨(mkInstance ctx ty).segment_length, by ring⟩

/-- Claim C4: in the segment filler, on the first pass (pass = 0) the
compression of the previous and reference blocks plainly overwrites the
destination block, while on every later pass the newly computed compression
result is XOR-accumulated onto the destination block's existing contents. -/
theorem fill_block_overwrite_then_xor (G : Block → Block → Block)
    (addr : Nat → Nat → Nat → Nat → Nat) (inst : Argon2_instance_t)
    (pass lane slice index : Nat) (mem : Mem) :
    fill_block G addr inst pass lane slice index mem
        (curr_offset inst lane slice index)
      = (if pass = 0 then compress_result G addr inst pass lane slice index mem
         else xor_block (mem (curr_offset inst lane slice index))
           (compress_result G addr inst pass lane slice index mem)) := by
  unfold fill_block
  exact Function.update_same _ _ _

/-- Claim C5: whenever memory allocation fails during a hashing invocation
that passed validation, `argon2_core` returns the allocation-failure error
kind, no tag is written to the output, and no allocated memory is leaked
(no successful allocation remains unfreed in the trace). -/
theorem argon2_core_alloc_failure (G : Block → Block → Block)
    (addr : Nat → Nat → Nat → Nat → Nat) (H : List Nat → Nat → List Nat)
    (alloc : Nat → Option Mem) (sched : Nat → Nat → List Nat)
    (ctx : Argon2_Context) (ty : Argon2_type)
    (hv : validate_inputs ctx = .ARGON2_OK)
    (ha : alloc (mkInstance ctx ty).memory_blocks = none) :
    (argon2_core G addr H alloc sched ctx ty).1
        = .ARGON2_MEMORY_ALLOCATION_ERROR ∧
    (argon2_core G addr H alloc sched ctx ty).2.1 = none ∧
    alloc_balance (argon2_core G addr H alloc sched ctx ty).2.2 = 0 ∧
    (argon2_core G addr H alloc sched ctx ty).2.2.count CoreEvent.evAllocSuccess
      = 0 := by
  rw [argon2_core_ok_shape G addr H alloc sched ctx ty hv, ha]
  refine ⟨rfl, rfl, ?_, ?_⟩
  · show alloc_balance [CoreEvent.evValidate, CoreEvent.evAllocCall] = 0
    decide
  · show ([CoreEvent.evValidate, CoreEvent.evAllocCall] : List CoreEvent).count
      CoreEvent.evAllocSuccess = 0
    decide

/-- Witness for claim C5: the always-failing allocator on a valid context. -/
theorem argon2_core_alloc_failure_witness :
    (argon2_core G0 addr0 H0 allocFail sched0 ctx0 .Argon2_i).1
        = .ARGON2_MEMORY_ALLOCATION_ERROR ∧
    (argon2_core G0 addr0 H0 allocFail sched0 ctx0 .Argon2_i).2.1 = none ∧
    alloc_balance (argon2_core G0 addr0 H0 allocFail sched0 ctx0 .Argon2_i).2.2 = 0 ∧
    (argon2_core G0 addr0 H0 allocFail sched0 ctx0 .Argon2_i).2.2.count
      CoreEvent.evAllocSuccess = 0 :=
  argon2_core_alloc_failure G0 addr0 H0 allocFail sched0 ctx0 .Argon2_i
    (by decide) rfl

/-- Claim C6: a context with malformed parameters is rejected with the
corresponding parameter error kind before any call to `allocate_memory`; the
run's whole trace is the single validation step, so allocation is never
reached on a validation failure. -/
theorem argon2_core_validation_short_circuit (G : Block → Block → Block)
    (addr : Nat → Nat → Nat → Nat → Nat) (H : List Nat → Nat → List Nat)
    (alloc : Nat → Option Mem) (sched : Nat → Nat → List Nat)
    (ctx : Argon2_Context) (ty : Argon2_type)
    (hv : validate_inputs ctx ≠ .ARGON2_OK) :
    argon2_core G addr H alloc sched ctx ty
        = (validate_inputs ctx, none, [.evValidate]) ∧
    CoreEvent.evAllocCall ∉ (argon2_core G addr H alloc sched ctx ty).2.2 := by
  have h1 : argon2_core G addr H alloc sched ctx ty
      = (validate_inputs ctx, none, [.evValidate]) := by
    unfold argon2_core
    rw [if_pos hv]
  refine ⟨h1, ?_⟩
  rw [h1]
  show CoreEvent.evAllocCall ∉ [CoreEvent.evValidate]
  decide

/-- Witness for claim C6: output length zero is rejected at validation. -/
theorem argon2_core_validation_short_circuit_witness :
    argon2_core G0 addr0 H0 alloc0 sched0 ctxBadOut .Argon2_i
        = (validate_inputs ctxBadOut, none, [.evValidate]) ∧
    CoreEvent.evAllocCall ∉ (argon2_core G0 addr0 H0 alloc0 sched0 ctxBadOut
      .Argon2_i).2.2 :=
  argon2_core_validation_short_circuit G0 addr0 H0 alloc0 sched0 ctxBadOut
    .Argon2_i (by decide)

set_option maxRecDepth 8192

/-- Claim C7: `init_block_value b v` sets every one of the 1024 bytes of the
block to `v` (each of the eight bytes of each of the 128 words equals `v`);
`copy_block` makes the destination an exact word-for-word copy of the
source; `xor_block` replaces each 64-bit word of the destination by its XOR
with the corresponding word of the source.  All three are total functions
with no error conditions. -/
theorem block_ops_spec :
    (∀ v : Nat, v < 256 → ∀ i : Fin ARGON2_WORDS_IN_BLOCK, ∀ k : Nat, k < 8 →
      byteOf (init_block_value v i) k = v) ∧
    (∀ dst src : Block, ∀ i : Fin ARGON2_WORDS_IN_BLOCK,
      copy_block dst src i = src i) ∧
    (∀ dst src : Block, ∀ i : Fin ARGON2_WORDS_IN_BLOCK,
      xor_block dst src i = Nat.xor (dst i) (src i)) := by
  refine ⟨?_, fun dst src i => rfl, fun dst src i => rfl⟩
  intro v hv i k hk
  have key : ∀ a : Fin 256, ∀ b : Fin 8,
      a.val * 72340172838076673 / 256 ^ b.val % 256 = a.val := by decide
  have h := key ⟨v, hv⟩ ⟨k, hk⟩
  unfold init_block_value byteOf
  rw [Nat.mod_eq_of_lt hv]
  exact h

set_option maxRecDepth 512

/-- Witness for claim C7: all three block operations at concrete inputs. -/
theorem block_ops_spec_witness :
    byteOf (init_block_value 170 ⟨3, by decide⟩) 5 = 170 ∧
    copy_block zeroBlock (init_block_value 1) ⟨0, by decide⟩
      = init_block_value 1 ⟨0, by decide⟩ ∧
    xor_block (init_block_value 1) (init_block_value 2) ⟨0, by decide⟩
      = Nat.xor (init_block_value 1 ⟨0, by decide⟩)
          (init_block_value 2 ⟨0, by decide⟩) :=
  ⟨block_ops_spec.1 170 (by decide) ⟨3, by decide⟩ 5 (by decide),
   block_ops_spec.2.1 zeroBlock (init_block_value 1) ⟨0, by decide⟩,
   block_ops_spec.2.2 (init_block_value 1) (init_block_value 2) ⟨0, by decide⟩⟩

/-- Claim C8: every memory-mutating operation on an `Argon2_instance_t`
leaves the fields passes, memory_blocks, segment_length, lane_length, lanes,
threads, type and print_internals unchanged; only the memory contents are
mutated. -/
theorem instance_fields_immutable (G : Block → Block → Block)
    (addr : Nat → Nat → Nat → Nat → Nat) (H : List Nat → Nat → List Nat)
    (inst : Argon2_instance_t) (pos : Argon2_position_t)
    (sched : Nat → Nat → List Nat) (blockhash : List Nat) (clear : Bool) :
    ((fill_segment G addr inst pos).passes = inst.passes ∧
     (fill_segment G addr inst pos).memory_blocks = inst.memory_blocks ∧
     (fill_segment G addr inst pos).segment_length = inst.segment_length ∧
     (fill_segment G addr inst pos).lane_length = inst.lane_length ∧
     (fill_segment G addr inst pos).lanes = inst.lanes ∧
     (fill_segment G addr inst pos).threads = inst.threads ∧
     (fill_segment G addr inst pos).type = inst.type ∧
     (fill_segment G addr inst pos).print_internals = inst.print_internals) ∧
    ((fill_memory_blocks G addr inst sched).passes = inst.passes ∧
     (fill_memory_blocks G addr inst sched).memory_blocks = inst.memory_blocks ∧
     (fill_memory_blocks G addr inst sched).segment_length = inst.segment_length ∧
     (fill_memory_blocks G addr inst sched).lane_length = inst.lane_length ∧
     (fill_memory_blocks G addr inst sched).lanes = inst.lanes ∧
     (fill_memory_blocks G addr inst sched).threads = inst.threads ∧
     (fill_memory_blocks G addr inst sched).type = inst.type ∧
     (fill_memory_blocks G addr inst sched).print_internals = inst.print_internals) ∧
    ((fill_firsts_blocks H blockhash inst).passes = inst.passes ∧
     (fill_firsts_blocks H blockhash inst).memory_blocks = inst.memory_blocks ∧
     (fill_firsts_blocks H blockhash inst).segment_length = inst.segment_length ∧
     (fill_firsts_blocks H blockhash inst).lane_length = inst.lane_length ∧
     (fill_firsts_blocks H blockhash inst).lanes = inst.lanes ∧
     (fill_firsts_blocks H blockhash inst).threads = inst.threads ∧
     (fill_firsts_blocks H blockhash inst).type = inst.type ∧
     (fill_firsts_blocks H blockhash inst).print_internals = inst.print_internals) ∧
    ((clear_memory inst clear).passes = inst.passes ∧
     (clear_memory inst clear).memory_blocks = inst.memory_blocks ∧
     (clear_memory inst clear).segment_length = inst.segment_length ∧
     (clear_memory inst clear).lane_length = inst.lane_length ∧
     (clear_memory inst clear).lanes = inst.lanes ∧
     (clear_memory inst clear).threads = inst.threads ∧
     (clear_memory inst clear).type = inst.type ∧
     (clear_memory inst clear).print_internals = inst.print_internals) :=
  ⟨⟨rfl, rfl, rfl, rfl, rfl, rfl, rfl, rfl⟩,
   ⟨rfl, rfl, rfl, rfl, rfl, rfl, rfl, rfl⟩,
   ⟨rfl, rfl, rfl, rfl, rfl, rfl, rfl, rfl⟩,
   ⟨rfl, rfl, rfl, rfl, rfl, rfl, rfl, rfl⟩⟩

/-- Claim C9: the block type consists of exactly 128 sixty-four-bit words,
1024 bytes (ARGON2_BLOCK_SIZE = 1024, ARGON2_WORDS_IN_BLOCK =
ARGON2_BLOCK_SIZE / 8 = 128, so 8 × 128 words of bytes make the block), and
the declared alignment of the block structure is 16 bytes. -/
theorem block_geometry :
    ARGON2_BLOCK_SIZE = 1024 ∧
    ARGON2_WORDS_IN_BLOCK = ARGON2_BLOCK_SIZE / 8 ∧
    ARGON2_WORDS_IN_BLOCK = 128 ∧
    8 * ARGON2_WORDS_IN_BLOCK = ARGON2_BLOCK_SIZE ∧
    BLOCK_ALIGNMENT = 16 ∧
    Block = (Fin 128 → Nat) :=
  ⟨rfl, rfl, rfl, rfl, rfl, rfl⟩

/-- Claim C10: the pre-hash seed length exceeds the pre-hash digest length
by exactly 8 bytes (72 = 64 + 8), exactly the room for the 4-byte
little-endian block-index and 4-byte lane-index suffixes: `initial_hash`
produces a digest of `ARGON2_PREHASH_DIGEST_LENGTH` bytes, and the seed
passed on to the first-blocks filler has the full
`ARGON2_PREHASH_SEED_LENGTH`. -/
theorem prehash_seed_room (H : List Nat → Nat → List Nat)
    (hH : ∀ x n, (H x n).length = n) (ctx : Argon2_Context)
    (ty : Argon2_type) (digest : List Nat)
    (hd : digest.length = ARGON2_PREHASH_DIGEST_LENGTH) (b l : Nat) :
    ARGON2_PREHASH_SEED_LENGTH = ARGON2_PREHASH_DIGEST_LENGTH + 8 ∧
    (le32 b).length = 4 ∧ (le32 l).length = 4 ∧
    (blockhash_seed digest b l).length = ARGON2_PREHASH_SEED_LENGTH ∧
    (initial_hash H ctx ty).length = ARGON2_PREHASH_DIGEST_LENGTH := by
  refine ⟨rfl, rfl, rfl, ?_, hH _ _⟩
  unfold blockhash_seed
  rw [List.length_append, List.length_append, List.length_take, hd]
  rfl

/-- Witness for claim C10: the seed arithmetic at concrete inputs. -/
theorem prehash_seed_room_witness :
    (∀ x n, (H0 x n).length = n) ∧
    (List.replicate 64 (0 : Nat)).length = ARGON2_PREHASH_DIGEST_LENGTH ∧
    (ARGON2_PREHASH_SEED_LENGTH = ARGON2_PREHASH_DIGEST_LENGTH + 8 ∧
     (le32 0).length = 4 ∧ (le32 1).length = 4 ∧
     (blockhash_seed (List.replicate 64 (0 : Nat)) 0 1).length
       = ARGON2_PREHASH_SEED_LENGTH ∧
     (initial_hash H0 ctx0 .Argon2_i).length = ARGON2_PREHASH_DIGEST_LENGTH) :=
  ⟨fun x n => List.length_replicate n 0,
   List.length_replicate 64 0,
   prehash_seed_room H0 (fun x n => List.length_replicate n 0) ctx0 .Argon2_i
     (List.replicate 64 0) (List.length_replicate 64 0) 0 1⟩

end Argon2
